import Mathlib

/-!
Verification development for the rusty-rays path tracer
(`src/math.rs`, `src/main.rs`).

The embedding models `f32` as `ℚ` (exact arithmetic, no rounding).  The two
transcendental floating-point operations that the code uses, `f32::sqrt` and
`f32::powf`, have no exact rational counterpart, so they are passed as
explicit function parameters (`sqrtQ : ℚ → ℚ`, `powf : ℚ → ℚ → ℚ`); theorems
that need facts about them (non-negativity, exactness at a perfect square,
monotonicity) take those facts as hypotheses and witnesses discharge them at
concrete inputs where the square root is exact.  The random samplers
(`random_in_unit_sphere`) are modelled by passing the sampled vector (or a
stream of them) as an explicit argument.
-/

namespace RR

/-- Source: `Vector3` from src/math.rs: three `f32` (here `ℚ`) components. -/
structure Vector3 where
  x : ℚ
  y : ℚ
  z : ℚ
deriving DecidableEq, Repr

/-- Source: `Vector3::new`. -/
def Vector3.new (x y z : ℚ) : Vector3 := ⟨x, y, z⟩

/-- Source: `Vector3::origin`: the zero vector. -/
def Vector3.origin : Vector3 := ⟨0, 0, 0⟩

/-- Source: `impl ops::Add for Vector3`: componentwise addition. -/
instance : Add Vector3 := ⟨fun a b => ⟨a.x + b.x, a.y + b.y, a.z + b.z⟩⟩

/-- Source: `impl ops::Sub for Vector3`: componentwise subtraction. -/
instance : Sub Vector3 := ⟨fun a b => ⟨a.x - b.x, a.y - b.y, a.z - b.z⟩⟩

/-- Source: `impl ops::Mul<f32> for Vector3`: scaling every component by the scalar. -/
instance : HMul Vector3 ℚ Vector3 := ⟨fun v k => ⟨v.x * k, v.y * k, v.z * k⟩⟩

/-- Source: `impl ops::Mul for Vector3` (src/math.rs lines 84–94), exactly as written
in the source: note that the `y` and `z` components are also multiplied by
`rhs.x`, not by `rhs.y` / `rhs.z`. -/
instance : Mul Vector3 := ⟨fun v rhs => ⟨v.x * rhs.x, v.y * rhs.x, v.z * rhs.x⟩⟩

/-- Source: `impl ops::Add<f32> for Vector3`: the scalar added to every component. -/
instance : HAdd Vector3 ℚ Vector3 := ⟨fun v k => ⟨v.x + k, v.y + k, v.z + k⟩⟩

/-- Scalar–vector product `f32 * Vector3`, used by `reflect`
(`2.0 * dot(v, n) * n`): scaling every component. -/
instance : HMul ℚ Vector3 Vector3 := ⟨fun k v => ⟨k * v.x, k * v.y, k * v.z⟩⟩

theorem Vector3.add_def (a b : Vector3) :
    a + b = ⟨a.x + b.x, a.y + b.y, a.z + b.z⟩ := rfl

theorem Vector3.sub_def (a b : Vector3) :
    a - b = ⟨a.x - b.x, a.y - b.y, a.z - b.z⟩ := rfl

theorem Vector3.smul_def (v : Vector3) (k : ℚ) :
    v * k = ⟨v.x * k, v.y * k, v.z * k⟩ := rfl

theorem Vector3.mul_def (v rhs : Vector3) :
    v * rhs = ⟨v.x * rhs.x, v.y * rhs.x, v.z * rhs.x⟩ := rfl

theorem Vector3.adds_def (v : Vector3) (k : ℚ) :
    v + k = ⟨v.x + k, v.y + k, v.z + k⟩ := rfl

theorem Vector3.smul_left_def (k : ℚ) (v : Vector3) :
    k * v = ⟨k * v.x, k * v.y, k * v.z⟩ := rfl

/-- Source: `dot` from src/math.rs. -/
def dot (v1 v2 : Vector3) : ℚ := v1.x * v2.x + v1.y * v2.y + v1.z * v2.z

/-- Source: `Vector3::length`: `sqrt(dot(self, self))`, with the square root abstract. -/
def Vector3.length (sqrtQ : ℚ → ℚ) (v : Vector3) : ℚ := sqrtQ (dot v v)

/-- Source: `Vector3::normalize`: `self * (1.0 / self.length())`. -/
def Vector3.normalize (sqrtQ : ℚ → ℚ) (v : Vector3) : Vector3 :=
  v * (1 / v.length sqrtQ)

/-- Source: `Ray` from src/math.rs. -/
structure Ray where
  origin : Vector3
  direction : Vector3
deriving DecidableEq, Repr

/-- Source: `point_at_ray` from src/math.rs: `ray.origin + ray.direction * t`. -/
def point_at_ray (ray : Ray) (t : ℚ) : Vector3 := ray.origin + ray.direction * t

/-- Source: `cross` from src/math.rs. -/
def cross (v1 v2 : Vector3) : Vector3 :=
  Vector3.new (v1.y * v2.z - v1.z * v2.y) (-(v1.x * v2.z - v1.z * v2.x))
    (v1.x * v2.y - v1.y * v2.x)

/-- Source: `const KMIN_T: f32 = 0.001`. -/
def KMIN_T : ℚ := 1 / 1000

/-- Source: `const KMAX_T: f32 = 10000000.0`. -/
def KMAX_T : ℚ := 10000000

/-- The two material kinds of src/main.rs (`Lambertian` and `Metal`), each
carrying its `albedo`.  The trait-object dispatch of the source becomes a
`match` on this inductive. -/
inductive Material where
  | lambertian (albedo : Vector3)
  | metal (albedo : Vector3)
deriving DecidableEq, Repr

/-- Source: `Scatter` from src/main.rs. -/
structure Scatter where
  scattered : Ray
  attenuation : Vector3
deriving DecidableEq, Repr

/-- Source: `Hit` from src/main.rs (the material reference becomes a value). -/
structure Hit where
  position : Vector3
  normal : Vector3
  t : ℚ
  material : Material
deriving DecidableEq, Repr

/-- Source: `Sphere` from src/main.rs. -/
structure Sphere where
  radius : ℚ
  position : Vector3
  material : Material
deriving DecidableEq, Repr

/-- Source: `reflect` from src/main.rs: `*v - 2.0 * dot(v, n) * n`. -/
def reflect (v n : Vector3) : Vector3 := v - (2 * dot v n) * n

/-- Source: `Material::scatter` of src/main.rs, for both impls.  `us` stands for the
value returned by `random_in_unit_sphere()` in the Lambertian case (the
Metal case does not sample). -/
def scatter (sqrtQ : ℚ → ℚ) (m : Material) (ray_in : Ray) (hit : Hit)
    (us : Vector3) : Option Scatter :=
  match m with
  | .lambertian albedo =>
    let target := hit.position + hit.normal + us
    let scattered : Ray := ⟨hit.position + (1 / 1000 : ℚ), target - hit.position⟩
    some ⟨scattered, albedo⟩
  | .metal albedo =>
    let reflected := reflect (ray_in.direction.normalize sqrtQ) hit.normal
    let scattered : Ray := ⟨hit.position, reflected⟩
    if dot scattered.direction hit.normal > 0 then some ⟨scattered, albedo⟩
    else none

/-- The local `oc` of `ray_sphere_intersection`: `ray.origin - sphere.position`. -/
def sphere_oc (ray : Ray) (sphere : Sphere) : Vector3 := ray.origin - sphere.position

/-- The local `a`: `dot(ray.direction, ray.direction)`. -/
def sphere_qa (ray : Ray) : ℚ := dot ray.direction ray.direction

/-- The local `b`: `dot(oc, ray.direction)`. -/
def sphere_qb (ray : Ray) (sphere : Sphere) : ℚ := dot (sphere_oc ray sphere) ray.direction

/-- The local `c`: `dot(oc, oc) - radius * radius`. -/
def sphere_qc (ray : Ray) (sphere : Sphere) : ℚ :=
  dot (sphere_oc ray sphere) (sphere_oc ray sphere) - sphere.radius * sphere.radius

/-- The local `discriminant`: `b * b - a * c`. -/
def sphere_discriminant (ray : Ray) (sphere : Sphere) : ℚ :=
  sphere_qb ray sphere * sphere_qb ray sphere - sphere_qa ray * sphere_qc ray sphere

/-- The first root tried: `(-b - discriminant.sqrt()) / a`. -/
def sphere_t1 (sqrtQ : ℚ → ℚ) (ray : Ray) (sphere : Sphere) : ℚ :=
  (-sphere_qb ray sphere - sqrtQ (sphere_discriminant ray sphere)) / sphere_qa ray

/-- The second root tried: `(-b + discriminant.sqrt()) / a`. -/
def sphere_t2 (sqrtQ : ℚ → ℚ) (ray : Ray) (sphere : Sphere) : ℚ :=
  (-sphere_qb ray sphere + sqrtQ (sphere_discriminant ray sphere)) / sphere_qa ray

/-- The hit record built in the first-root branch of `ray_sphere_intersection`
(note the normal is `normalize`d there). -/
def sphere_hit_smaller (sqrtQ : ℚ → ℚ) (ray : Ray) (sphere : Sphere) : Hit :=
  let t := sphere_t1 sqrtQ ray sphere
  let hit_position := point_at_ray ray t
  let hit_normal := (hit_position - sphere.position) * (1 / sphere.radius)
  ⟨hit_position, hit_normal.normalize sqrtQ, t, sphere.material⟩

/-- The hit record built in the second-root branch of `ray_sphere_intersection`
(the normal is NOT `normalize`d there, exactly as in the source). -/
def sphere_hit_larger (sqrtQ : ℚ → ℚ) (ray : Ray) (sphere : Sphere) : Hit :=
  let t := sphere_t2 sqrtQ ray sphere
  let hit_position := point_at_ray ray t
  let hit_normal := (hit_position - sphere.position) * (1 / sphere.radius)
  ⟨hit_position, hit_normal, t, sphere.material⟩

/-- Source: `ray_sphere_intersection` from src/main.rs lines 156–195. -/
def ray_sphere_intersection (sqrtQ : ℚ → ℚ) (ray : Ray) (sphere : Sphere)
    (t_min t_max : ℚ) : Option Hit :=
  if sphere_discriminant ray sphere > 0 then
    let t := sphere_t1 sqrtQ ray sphere
    if t < t_max ∧ t > t_min then some (sphere_hit_smaller sqrtQ ray sphere)
    else
      let t := sphere_t2 sqrtQ ray sphere
      if t < t_max ∧ t > t_min then some (sphere_hit_larger sqrtQ ray sphere)
      else none
  else none

/-- The loop of `intersect_scene` (src/main.rs lines 203–218), with the two
mutable locals `closest_t` and `closest_hit` as accumulators. -/
def intersect_scene_loop (sqrtQ : ℚ → ℚ) (ray : Ray) (t_min : ℚ) :
    List Sphere → ℚ → Option Hit → Option Hit
  | [], _, closest_hit => closest_hit
  | sphere :: rest, closest_t, closest_hit =>
    match ray_sphere_intersection sqrtQ ray sphere t_min closest_t with
    | some hit =>
      if hit.t > KMIN_T ∧ hit.t < closest_t then
        intersect_scene_loop sqrtQ ray t_min rest hit.t (some hit)
      else intersect_scene_loop sqrtQ ray t_min rest closest_t closest_hit
    | none => intersect_scene_loop sqrtQ ray t_min rest closest_t closest_hit

/-- Source: `intersect_scene` from src/main.rs lines 197–220. -/
def intersect_scene (sqrtQ : ℚ → ℚ) (ray : Ray) (spheres : List Sphere)
    (t_min t_max : ℚ) : Option Hit :=
  intersect_scene_loop sqrtQ ray t_min spheres t_max none

/-- Source: `trace` from src/main.rs lines 222–245.  `samples : ℕ → Vector3` is the
stream of `random_in_unit_sphere()` values consumed by Lambertian scatters,
one per bounce; the recursive call proceeds with the shifted stream. -/
def trace (sqrtQ : ℚ → ℚ) (samples : ℕ → Vector3) (ray : Ray)
    (spheres : List Sphere) (depth : ℤ) : Vector3 :=
  if depth > 50 then Vector3.origin
  else
    match intersect_scene sqrtQ ray spheres KMIN_T KMAX_T with
    | some hit =>
      match scatter sqrtQ hit.material ray hit (samples 0) with
      | some scattered =>
        trace sqrtQ (fun n => samples (n + 1)) scattered.scattered spheres
            (depth + 1) * scattered.attenuation
      | none => Vector3.origin
    | none =>
      let unit_direction := ray.direction.normalize sqrtQ
      let t := (1 / 2 : ℚ) * (unit_direction.y + 1)
      Vector3.new 1 1 1 * (1 - t) + Vector3.new (1 / 2) (7 / 10) 1 * t
termination_by (51 - depth).toNat
decreasing_by
  simp only [not_lt] at *
  omega

/-- Source: `linear_to_srgb` from src/main.rs lines 21–26.  `powf` abstracts
`f32::powf`; the `as u8` cast is Rust's saturating float-to-int conversion
(truncate toward zero — here the argument is non-negative, so floor — then
clamp to `[0, 255]`). -/
def linear_to_srgb (powf : ℚ → ℚ → ℚ) (val : ℚ) : ℕ :=
  let new1 := max val 0
  let new2 := max ((1055 / 1000 : ℚ) * powf new1 (416666667 / 1000000000) - 55 / 1000) 0
  let new_u8 := min (max ⌊new2 * (2559 / 10 : ℚ)⌋ 0).toNat 255
  min new_u8 255

/-! ### Concrete objects used to instantiate the theorems -/

/-- A square-root function that is exact on `1`, the discriminant of all the
concrete sphere examples below. -/
def exSqrt1 : ℚ → ℚ := fun _ => 1

/-- A trivial stream of unit-sphere samples. -/
def exSamples : ℕ → Vector3 := fun _ => Vector3.origin

def exMat : Material := Material.lambertian (Vector3.new 1 1 1)

/-- A ray from the origin along `-z`. -/
def exRayZ : Ray := ⟨Vector3.origin, Vector3.new 0 0 (-1)⟩

/-- A ray from the origin along `+y` (already unit length). -/
def exRayUp : Ray := ⟨Vector3.origin, Vector3.new 0 1 0⟩

/-- Unit sphere centred at `(0,0,-3)`: `exRayZ` hits it with discriminant `1`
and first root `t = 2`. -/
def exSphere : Sphere := ⟨1, Vector3.new 0 0 (-3), exMat⟩

/-- Unit sphere centred at `(0,0,-6)`: `exRayZ` hits it at `t = 5`. -/
def exSphere2 : Sphere := ⟨1, Vector3.new 0 0 (-6), exMat⟩

/-- Unit sphere centred at `(0,0,-2001/2000)`: `exRayZ` hits it at
`t = 1/2000`, which lies in `(0, KMIN_T]`. -/
def exNearSphere : Sphere := ⟨1, Vector3.new 0 0 (-(2001 / 2000)), exMat⟩

/-! ### C1 -/

/-- C1: the claim says `v * w = (v.x*w.x, v.y*w.y, v.z*w.z)`.  The code
(src/math.rs lines 84–94) instead multiplies every component by `rhs.x`:
at `v = (1,1,1)`, `w = (1,2,3)` it produces `(1,1,1)`, not the claimed
`(1,2,3)`.  This theorem evaluates the code at that failing input. -/
theorem C1_mul_is_not_componentwise :
    Vector3.new 1 1 1 * Vector3.new 1 2 3 = Vector3.new 1 1 1 ∧
    Vector3.new 1 1 1 * Vector3.new 1 2 3 ≠ Vector3.new 1 2 3 := by
  constructor
  · norm_num [Vector3.mul_def, Vector3.new]
  · norm_num [Vector3.mul_def, Vector3.new]

/-! ### C4 -/

/-- C4: `trace` returns exactly black `(0,0,0)` as soon as `depth > 50`,
without intersecting the scene or recursing.  (Totality of `trace` itself is
established by its definition: Lean accepts it by well-founded recursion on
`(51 - depth).toNat`, which the recursive call at `depth + 1` strictly
decreases, so the recursion from depth 0 is bounded by 51 calls.) -/
theorem C4_trace_depth_cutoff (sqrtQ : ℚ → ℚ) (samples : ℕ → Vector3)
    (ray : Ray) (spheres : List Sphere) (depth : ℤ) (hd : depth > 50) :
    trace sqrtQ samples ray spheres depth = Vector3.origin := by
  rw [trace, if_pos hd]

/-- Witness for C4 at the concrete depth 51. -/
theorem C4_trace_depth_cutoff_witness :
    (51 : ℤ) > 50 ∧ trace exSqrt1 exSamples exRayZ [] 51 = Vector3.origin :=
  ⟨by decide, C4_trace_depth_cutoff exSqrt1 exSamples exRayZ [] 51 (by decide)⟩

/-! ### C5 -/

/-- C5: on a ray that hits nothing (and depth within the bound), `trace`
returns `(1,1,1)*(1-t) + (0.5,0.7,1.0)*t` with `t = 0.5*(y+1)`, `y` the
`y`-component of the normalized ray direction. -/
theorem C5_trace_miss_sky_gradient (sqrtQ : ℚ → ℚ) (samples : ℕ → Vector3)
    (ray : Ray) (spheres : List Sphere) (depth : ℤ) (hd : ¬depth > 50)
    (hmiss : intersect_scene sqrtQ ray spheres KMIN_T KMAX_T = none) :
    trace sqrtQ samples ray spheres depth =
      Vector3.new 1 1 1 * (1 - (1 / 2 : ℚ) * ((ray.direction.normalize sqrtQ).y + 1)) +
        Vector3.new (1 / 2) (7 / 10) 1 *
          ((1 / 2 : ℚ) * ((ray.direction.normalize sqrtQ).y + 1)) := by
  rw [trace, if_neg hd, hmiss]

/-- Witness for C5: a ray straight up (normalized `y = 1`) over the empty
scene yields exactly the sky-blue `(0.5, 0.7, 1.0)`. -/
theorem C5_trace_miss_sky_gradient_witness :
    ¬(0 : ℤ) > 50 ∧ intersect_scene exSqrt1 exRayUp [] KMIN_T KMAX_T = none ∧
      trace exSqrt1 exSamples exRayUp [] 0 = Vector3.new (1 / 2) (7 / 10) 1 := by
  refine ⟨by decide, rfl, ?_⟩
  rw [C5_trace_miss_sky_gradient exSqrt1 exSamples exRayUp [] 0 (by decide) rfl]
  norm_num [Vector3.normalize, Vector3.length, dot, exRayUp, Vector3.new,
    Vector3.smul_def, Vector3.add_def, Vector3.mul_def, exSqrt1]

/-! ### C6 -/

/-- C6: Metal scatter reflects the *normalized* incoming direction about the
hit normal, `r = v - 2*dot(v,n)*n` (this is `reflect`'s definition), and
returns `some` scatter with attenuation `albedo`, origin `hit.position` and
direction `r` exactly when `dot(r, n) > 0`; otherwise `none`. -/
theorem C6_metal_scatter_characterization (sqrtQ : ℚ → ℚ) (ray : Ray)
    (hit : Hit) (albedo us : Vector3) :
    (0 < dot (reflect (ray.direction.normalize sqrtQ) hit.normal) hit.normal →
      scatter sqrtQ (Material.metal albedo) ray hit us =
        some ⟨⟨hit.position, reflect (ray.direction.normalize sqrtQ) hit.normal⟩,
          albedo⟩) ∧
    (dot (reflect (ray.direction.normalize sqrtQ) hit.normal) hit.normal ≤ 0 →
      scatter sqrtQ (Material.metal albedo) ray hit us = none) := by
  constructor
  · intro h
    simp only [scatter]
    rw [if_pos h]
  · intro h
    simp only [scatter]
    rw [if_neg (not_lt.mpr h)]

/-- Witness for C6: the ray along `-z` against a surface with normal
`(0,0,1)` reflects to `(0,0,1)` with positive dot product, so Metal scatter
succeeds there. -/
theorem C6_metal_scatter_witness :
    0 < dot (reflect (exRayZ.direction.normalize exSqrt1)
        (Vector3.new 0 0 1)) (Vector3.new 0 0 1) ∧
      scatter exSqrt1 (Material.metal (Vector3.new 1 1 1)) exRayZ
          ⟨Vector3.new 0 0 (-2), Vector3.new 0 0 1, 2, exMat⟩ Vector3.origin =
        some ⟨⟨Vector3.new 0 0 (-2),
          reflect (exRayZ.direction.normalize exSqrt1) (Vector3.new 0 0 1)⟩,
          Vector3.new 1 1 1⟩ := by
  have hpos : 0 < dot (reflect (exRayZ.direction.normalize exSqrt1)
      (Vector3.new 0 0 1)) (Vector3.new 0 0 1) := by
    norm_num [reflect, dot, exRayZ, exSqrt1, Vector3.new, Vector3.origin,
      Vector3.normalize, Vector3.length, Vector3.smul_def, Vector3.sub_def,
      Vector3.smul_left_def]
  exact ⟨hpos,
    (C6_metal_scatter_characterization exSqrt1 exRayZ
        ⟨Vector3.new 0 0 (-2), Vector3.new 0 0 1, 2, exMat⟩
        (Vector3.new 1 1 1) Vector3.origin).1 hpos⟩

/-! ### C7 -/

theorem Vector3.eq_of_components (a b : Vector3) (hx : a.x = b.x)
    (hy : a.y = b.y) (hz : a.z = b.z) : a = b := by
  cases a
  cases b
  cases hx
  cases hy
  cases hz
  rfl

/-- C7: Lambertian scatter always succeeds, with attenuation the albedo,
scattered direction `hit.normal + us` (where `us` is the unit-sphere sample),
and scattered origin `hit.position` with the scalar `0.001` added to each of
its three components. -/
theorem C7_lambertian_scatter (sqrtQ : ℚ → ℚ) (ray : Ray) (hit : Hit)
    (albedo us : Vector3) :
    scatter sqrtQ (Material.lambertian albedo) ray hit us =
      some ⟨⟨Vector3.new (hit.position.x + 1 / 1000) (hit.position.y + 1 / 1000)
          (hit.position.z + 1 / 1000), hit.normal + us⟩, albedo⟩ := by
  have h2 : hit.position + hit.normal + us - hit.position = hit.normal + us := by
    refine Vector3.eq_of_components _ _ ?_ ?_ ?_ <;>
      simp [Vector3.add_def, Vector3.sub_def] <;> ring
  simp only [scatter]
  rw [h2]
  rfl

/-! ### C2 -/

/-- C2: `ray_sphere_intersection` returns no hit when the discriminant
`b*b - a*c` is not positive; otherwise it tries the root
`(-b - sqrt(disc))/a` first, accepting it exactly when it lies strictly
between `t_min` and `t_max`, else the root `(-b + sqrt(disc))/a` under the
same strict bounds; the returned hit carries the accepted root as `t` and
the surface position `point_at_ray ray t`. -/
theorem C2_ray_sphere_intersection_characterization (sqrtQ : ℚ → ℚ)
    (ray : Ray) (sphere : Sphere) (t_min t_max : ℚ) :
    (sphere_discriminant ray sphere ≤ 0 →
      ray_sphere_intersection sqrtQ ray sphere t_min t_max = none) ∧
    (sphere_discriminant ray sphere > 0 →
      ((sphere_t1 sqrtQ ray sphere < t_max ∧ sphere_t1 sqrtQ ray sphere > t_min →
          ray_sphere_intersection sqrtQ ray sphere t_min t_max =
              some (sphere_hit_smaller sqrtQ ray sphere) ∧
            (sphere_hit_smaller sqrtQ ray sphere).t = sphere_t1 sqrtQ ray sphere ∧
            (sphere_hit_smaller sqrtQ ray sphere).position =
              point_at_ray ray (sphere_t1 sqrtQ ray sphere)) ∧
       (¬(sphere_t1 sqrtQ ray sphere < t_max ∧ sphere_t1 sqrtQ ray sphere > t_min) →
          (sphere_t2 sqrtQ ray sphere < t_max ∧ sphere_t2 sqrtQ ray sphere > t_min →
            ray_sphere_intersection sqrtQ ray sphere t_min t_max =
                some (sphere_hit_larger sqrtQ ray sphere) ∧
              (sphere_hit_larger sqrtQ ray sphere).t = sphere_t2 sqrtQ ray sphere ∧
              (sphere_hit_larger sqrtQ ray sphere).position =
                point_at_ray ray (sphere_t2 sqrtQ ray sphere)) ∧
          (¬(sphere_t2 sqrtQ ray sphere < t_max ∧ sphere_t2 sqrtQ ray sphere > t_min) →
            ray_sphere_intersection sqrtQ ray sphere t_min t_max = none)))) := by
  refine ⟨fun hle => ?_, fun hgt => ⟨fun h1 => ?_, fun h1 => ⟨fun h2 => ?_, fun h2 => ?_⟩⟩⟩
  · simp only [ray_sphere_intersection]
    rw [if_neg (not_lt.mpr hle)]
  · simp only [ray_sphere_intersection]
    rw [if_pos hgt, if_pos h1]
    exact ⟨rfl, rfl, rfl⟩
  · simp only [ray_sphere_intersection]
    rw [if_pos hgt, if_neg h1, if_pos h2]
    exact ⟨rfl, rfl, rfl⟩
  · simp only [ray_sphere_intersection]
    rw [if_pos hgt, if_neg h1, if_neg h2]

/-- Witness for C2: `exRayZ` against `exSphere` has discriminant `1 > 0` and
first root `t = 2` inside `(0.001, 10000000)`, so the smaller-root hit is
returned. -/
theorem C2_ray_sphere_intersection_witness :
    sphere_discriminant exRayZ exSphere > 0 ∧
      (sphere_t1 exSqrt1 exRayZ exSphere < 10000000 ∧
        sphere_t1 exSqrt1 exRayZ exSphere > 1 / 1000) ∧
      ray_sphere_intersection exSqrt1 exRayZ exSphere (1 / 1000) 10000000 =
        some (sphere_hit_smaller exSqrt1 exRayZ exSphere) := by
  have hgt : sphere_discriminant exRayZ exSphere > 0 := by
    norm_num [sphere_discriminant, sphere_qa, sphere_qb, sphere_qc, sphere_oc,
      dot, exRayZ, exSphere, Vector3.new, Vector3.origin, Vector3.sub_def]
  have h1 : sphere_t1 exSqrt1 exRayZ exSphere < 10000000 ∧
      sphere_t1 exSqrt1 exRayZ exSphere > 1 / 1000 := by
    norm_num [sphere_t1, sphere_discriminant, sphere_qa, sphere_qb, sphere_qc,
      sphere_oc, dot, exRayZ, exSphere, exSqrt1, Vector3.new, Vector3.origin,
      Vector3.sub_def]
  exact ⟨hgt, h1,
    (((C2_ray_sphere_intersection_characterization exSqrt1 exRayZ exSphere
      (1 / 1000) 10000000).2 hgt).1 h1).1⟩

/-! ### C9 -/

theorem dot_smul_eq (v : Vector3) (k : ℚ) :
    dot (v * k) (v * k) = k * k * dot v v := by
  simp only [dot, Vector3.smul_def]
  ring

theorem dot_point_sub_center (ray : Ray) (sphere : Sphere) (t : ℚ) :
    dot (point_at_ray ray t - sphere.position)
        (point_at_ray ray t - sphere.position) =
      sphere_qa ray * (t * t) + 2 * (sphere_qb ray sphere * t) +
        (sphere_qc ray sphere + sphere.radius * sphere.radius) := by
  simp only [point_at_ray, sphere_qa, sphere_qb, sphere_qc, sphere_oc, dot,
    Vector3.add_def, Vector3.sub_def, Vector3.smul_def]
  ring

theorem quad_root_eval (a b c s t : ℚ) (ha : a ≠ 0) (hs : s * s = b * b - a * c)
    (ht : t = (-b - s) / a ∨ t = (-b + s) / a) :
    a * (t * t) + 2 * (b * t) + c = 0 := by
  rcases ht with rfl | rfl <;> field_simp <;> linear_combination a ^ 2 * hs

theorem sphere_root_quad (sqrtQ : ℚ → ℚ) (ray : Ray) (sphere : Sphere)
    (hsq : sqrtQ (sphere_discriminant ray sphere) *
        sqrtQ (sphere_discriminant ray sphere) = sphere_discriminant ray sphere)
    (ha : sphere_qa ray ≠ 0) (t : ℚ)
    (ht : t = sphere_t1 sqrtQ ray sphere ∨ t = sphere_t2 sqrtQ ray sphere) :
    sphere_qa ray * (t * t) + 2 * (sphere_qb ray sphere * t) +
      sphere_qc ray sphere = 0 := by
  have hs : sqrtQ (sphere_discriminant ray sphere) *
      sqrtQ (sphere_discriminant ray sphere) =
        sphere_qb ray sphere * sphere_qb ray sphere -
          sphere_qa ray * sphere_qc ray sphere := by
    rw [hsq, sphere_discriminant]
  exact quad_root_eval _ _ _ _ _ ha hs ht

/-- Any point of the form `point_at_ray ray t` with `t` one of the two
quadratic roots lies on the sphere surface, so the pre-normalization normal
`(p - center) * (1/radius)` has squared length exactly 1. -/
theorem sphere_normal_unit_sq (sqrtQ : ℚ → ℚ) (ray : Ray) (sphere : Sphere)
    (hsq : sqrtQ (sphere_discriminant ray sphere) *
        sqrtQ (sphere_discriminant ray sphere) = sphere_discriminant ray sphere)
    (ha : sphere_qa ray ≠ 0) (hr : sphere.radius ≠ 0) (t : ℚ)
    (ht : t = sphere_t1 sqrtQ ray sphere ∨ t = sphere_t2 sqrtQ ray sphere) :
    dot ((point_at_ray ray t - sphere.position) * (1 / sphere.radius))
        ((point_at_ray ray t - sphere.position) * (1 / sphere.radius)) = 1 := by
  rw [dot_smul_eq, dot_point_sub_center]
  have h0 := sphere_root_quad sqrtQ ray sphere hsq ha t ht
  field_simp
  linear_combination h0

/-- C9: every hit returned by `ray_sphere_intersection` has a unit-length
normal, whichever root was accepted — in the exact-arithmetic model, its
squared length `dot n n` is exactly 1 (given that the abstract square root
is exact on the discriminant and on 1, that the ray direction is nonzero and
the radius nonzero).  The smaller-root branch normalizes an already-unit
vector; the larger-root branch returns the unnormalized `(p - c)*(1/r)`,
which is also unit because `p` lies on the sphere. -/
theorem C9_hit_normal_unit (sqrtQ : ℚ → ℚ) (ray : Ray) (sphere : Sphere)
    (t_min t_max : ℚ) (h : Hit)
    (hsq : sqrtQ (sphere_discriminant ray sphere) *
        sqrtQ (sphere_discriminant ray sphere) = sphere_discriminant ray sphere)
    (hone : sqrtQ 1 = 1) (ha : sphere_qa ray ≠ 0) (hr : sphere.radius ≠ 0)
    (hh : ray_sphere_intersection sqrtQ ray sphere t_min t_max = some h) :
    dot h.normal h.normal = 1 := by
  have hbase1 := sphere_normal_unit_sq sqrtQ ray sphere hsq ha hr _ (Or.inl rfl)
  have hbase2 := sphere_normal_unit_sq sqrtQ ray sphere hsq ha hr _ (Or.inr rfl)
  simp only [ray_sphere_intersection] at hh
  split_ifs at hh with hd h1 h2
  · injection hh with hh
    subst hh
    simp only [sphere_hit_smaller, Vector3.normalize, Vector3.length]
    rw [hbase1, hone, dot_smul_eq, hbase1]
    norm_num
  · injection hh with hh
    subst hh
    exact hbase2

/-- Witness for C9 at the concrete example hit (normal `(0,0,1)`). -/
theorem C9_hit_normal_unit_witness :
    ray_sphere_intersection exSqrt1 exRayZ exSphere (1 / 1000) 10000000 =
        some ⟨Vector3.new 0 0 (-2), Vector3.new 0 0 1, 2, exMat⟩ ∧
      dot (Vector3.new 0 0 1) (Vector3.new 0 0 1) = 1 := by
  have hh : ray_sphere_intersection exSqrt1 exRayZ exSphere (1 / 1000) 10000000 =
      some ⟨Vector3.new 0 0 (-2), Vector3.new 0 0 1, 2, exMat⟩ := by
    norm_num [ray_sphere_intersection, sphere_discriminant, sphere_qa, sphere_qb,
      sphere_qc, sphere_oc, sphere_t1, sphere_t2, sphere_hit_smaller,
      sphere_hit_larger, point_at_ray, dot, exSqrt1, exRayZ, exSphere, exMat,
      Vector3.new, Vector3.origin, Vector3.sub_def, Vector3.add_def,
      Vector3.smul_def, Vector3.normalize, Vector3.length]
  refine ⟨hh, C9_hit_normal_unit exSqrt1 exRayZ exSphere (1 / 1000) 10000000
    ⟨Vector3.new 0 0 (-2), Vector3.new 0 0 1, 2, exMat⟩ ?_ ?_ ?_ ?_ hh⟩
  · norm_num [sphere_discriminant, sphere_qa, sphere_qb, sphere_qc, sphere_oc,
      dot, exRayZ, exSphere, exSqrt1, Vector3.new, Vector3.origin, Vector3.sub_def]
  · norm_num [exSqrt1]
  · norm_num [sphere_qa, dot, exRayZ, Vector3.new]
  · norm_num [exSphere]

/-! ### C10 -/

/-- Invariant of the `intersect_scene` loop: if the accumulated hit has
`t > KMIN_T`, so does any hit the loop finally returns (every newly accepted
hit passes the `hit.t > KMIN_T` test). -/
theorem intersect_scene_loop_min_t (sqrtQ : ℚ → ℚ) (ray : Ray) (t_min : ℚ) :
    ∀ (spheres : List Sphere) (closest_t : ℚ) (closest_hit : Option Hit),
      (∀ h0, closest_hit = some h0 → KMIN_T < h0.t) →
      ∀ h, intersect_scene_loop sqrtQ ray t_min spheres closest_t closest_hit =
          some h → KMIN_T < h.t := by
  intro spheres
  induction spheres with
  | nil => intro closest_t closest_hit hacc h hh; exact hacc h hh
  | cons s rest ih =>
    intro closest_t closest_hit hacc h hh
    cases hr : ray_sphere_intersection sqrtQ ray s t_min closest_t with
    | none =>
      simp only [intersect_scene_loop, hr] at hh
      exact ih closest_t closest_hit hacc h hh
    | some hit =>
      simp only [intersect_scene_loop, hr] at hh
      by_cases hc : hit.t > KMIN_T ∧ hit.t < closest_t
      · rw [if_pos hc] at hh
        refine ih hit.t (some hit) ?_ h hh
        intro h0 h0eq
        injection h0eq with h0eq
        subst h0eq
        exact hc.1
      · rw [if_neg hc] at hh
        exact ih closest_t closest_hit hacc h hh

/-- C10: every hit returned by `intersect_scene` has `t > KMIN_T = 0.001`,
for any bounds — including `t_min` smaller than `KMIN_T` — because the loop
filters every accepted hit against the constant `KMIN_T`. -/
theorem C10_scene_hit_above_kmin (sqrtQ : ℚ → ℚ) (ray : Ray)
    (spheres : List Sphere) (t_min t_max : ℚ) (h : Hit)
    (hh : intersect_scene sqrtQ ray spheres t_min t_max = some h) :
    KMIN_T < h.t := by
  refine intersect_scene_loop_min_t sqrtQ ray t_min spheres t_max none ?_ h hh
  intro h0 h0eq
  cases h0eq

/-- Witness for C10 with `t_min = 0 < KMIN_T`: the returned hit has
`t = 2 > KMIN_T`. -/
theorem C10_scene_hit_above_kmin_witness :
    intersect_scene exSqrt1 exRayZ [exSphere] 0 KMAX_T =
        some ⟨Vector3.new 0 0 (-2), Vector3.new 0 0 1, 2, exMat⟩ ∧
      KMIN_T < (2 : ℚ) := by
  have hh : intersect_scene exSqrt1 exRayZ [exSphere] 0 KMAX_T =
      some ⟨Vector3.new 0 0 (-2), Vector3.new 0 0 1, 2, exMat⟩ := by
    norm_num [intersect_scene, intersect_scene_loop, ray_sphere_intersection,
      sphere_discriminant, sphere_qa, sphere_qb, sphere_qc, sphere_oc, sphere_t1,
      sphere_t2, sphere_hit_smaller, sphere_hit_larger, point_at_ray, dot,
      exSqrt1, exRayZ, exSphere, exMat, Vector3.new, Vector3.origin,
      Vector3.sub_def, Vector3.add_def, Vector3.smul_def, Vector3.normalize,
      Vector3.length, KMIN_T, KMAX_T]
  exact ⟨hh, C10_scene_hit_above_kmin exSqrt1 exRayZ [exSphere] 0 KMAX_T
    ⟨Vector3.new 0 0 (-2), Vector3.new 0 0 1, 2, exMat⟩ hh⟩

/-! ### C8 -/

/-- C8: `linear_to_srgb 0 = 0`, `linear_to_srgb 1 = 255`, the function is
monotone non-decreasing on `[0, 1]`, and its result never exceeds 255.  The
abstract `powf` is assumed monotone on non-negative inputs with
`powf 0 e = 0` and `powf 1 e = 1` at the exponent `e = 0.416666667` the code
uses (true of `f32::powf` with a positive exponent). -/
theorem C8_linear_to_srgb_props (powf : ℚ → ℚ → ℚ)
    (hmono : ∀ x y : ℚ, 0 ≤ x → x ≤ y →
      powf x (416666667 / 1000000000) ≤ powf y (416666667 / 1000000000))
    (hp0 : powf 0 (416666667 / 1000000000) = 0)
    (hp1 : powf 1 (416666667 / 1000000000) = 1) :
    linear_to_srgb powf 0 = 0 ∧ linear_to_srgb powf 1 = 255 ∧
      (∀ u v : ℚ, 0 ≤ u → u ≤ v → v ≤ 1 →
        linear_to_srgb powf u ≤ linear_to_srgb powf v) ∧
      (∀ v : ℚ, linear_to_srgb powf v ≤ 255) := by
  refine ⟨?_, ?_, ?_, ?_⟩
  · norm_num [linear_to_srgb, hp0, max_def, min_def]
  · norm_num [linear_to_srgb, hp1, max_def, min_def,
      show Int.toNat 255 = 255 from rfl]
  · intro u v hu huv _
    have s1 : max u 0 ≤ max v 0 := max_le_max huv le_rfl
    have s2 : powf (max u 0) (416666667 / 1000000000) ≤
        powf (max v 0) (416666667 / 1000000000) :=
      hmono _ _ (le_max_right u 0) s1
    have s3 : (1055 / 1000 : ℚ) * powf (max u 0) (416666667 / 1000000000) -
        55 / 1000 ≤
          (1055 / 1000 : ℚ) * powf (max v 0) (416666667 / 1000000000) -
            55 / 1000 :=
      sub_le_sub_right (mul_le_mul_of_nonneg_left s2 (by norm_num)) _
    have s4 := max_le_max s3 (le_refl (0 : ℚ))
    have s5 := mul_le_mul_of_nonneg_right s4 (by norm_num : (0:ℚ) ≤ 2559 / 10)
    have s6 := Int.floor_le_floor s5
    have s7 := Int.toNat_le_toNat (max_le_max s6 (le_refl (0 : ℤ)))
    simp only [linear_to_srgb]
    exact min_le_min (min_le_min s7 le_rfl) le_rfl
  · intro v
    simp only [linear_to_srgb]
    exact min_le_right _ _

/-- Witness for C8, with `powf` instantiated by the (monotone) first
projection. -/
theorem C8_linear_to_srgb_witness :
    linear_to_srgb (fun x _ => x) 0 = 0 ∧ linear_to_srgb (fun x _ => x) 1 = 255 ∧
      linear_to_srgb (fun x _ => x) (1 / 4) ≤ linear_to_srgb (fun x _ => x) (3 / 4) ∧
      linear_to_srgb (fun x _ => x) 2 ≤ 255 := by
  obtain ⟨a, b, c, d⟩ := C8_linear_to_srgb_props (fun x _ => x)
    (fun x y _ hxy => hxy) rfl rfl
  exact ⟨a, b, c (1 / 4) (3 / 4) (by norm_num) (by norm_num) (by norm_num), d 2⟩

/-! ### C3 -/

/-- The hit that a single sphere contributes, in the spec's terms: its
`ray_sphere_intersection` within the full window, kept only when its `t`
also clears the `KMIN_T` filter that the `intersect_scene` loop applies. -/
def spec_accepted (sqrtQ : ℚ → ℚ) (ray : Ray) (t_min t_max : ℚ)
    (sphere : Sphere) : Option Hit :=
  match ray_sphere_intersection sqrtQ ray sphere t_min t_max with
  | some h => if KMIN_T < h.t then some h else none
  | none => none

/-- Choice between the current best hit (from earlier spheres, first
argument) and a later candidate: the later one wins only when its `t` is
strictly smaller — so the earliest sphere wins exact ties. -/
def hit_nearer : Option Hit → Option Hit → Option Hit
  | none, o => o
  | some h, none => some h
  | some h, some h2 => if h2.t < h.t then some h2 else some h

/-- The nearest accepted hit over a sphere list, earliest-first: the spec's
description of what `intersect_scene` returns. -/
def spec_nearest_hit (sqrtQ : ℚ → ℚ) (ray : Ray) (t_min t_max : ℚ) :
    List Sphere → Option Hit
  | [] => none
  | s :: rest =>
    hit_nearer (spec_accepted sqrtQ ray t_min t_max s)
      (spec_nearest_hit sqrtQ ray t_min t_max rest)

/-- Counterexample to C3 as stated: with `t_min = 0`, `exNearSphere` yields
an accepted intersection (`ray_sphere_intersection` returns a hit, at
`t = 1/2000 ∈ (0, KMAX_T)`), yet `intersect_scene` returns `none` — the
loop's extra `hit.t > KMIN_T` filter silently drops it, contradicting
"returns ... or none when no sphere yields an accepted hit". -/
theorem C3_nearest_hit_counterexample :
    (ray_sphere_intersection exSqrt1 exRayZ exNearSphere 0 KMAX_T).isSome = true ∧
      intersect_scene exSqrt1 exRayZ [exNearSphere] 0 KMAX_T = none := by
  constructor
  · norm_num [ray_sphere_intersection, sphere_discriminant, sphere_qa, sphere_qb,
      sphere_qc, sphere_oc, sphere_t1, sphere_t2, sphere_hit_smaller,
      sphere_hit_larger, point_at_ray, dot, exSqrt1, exRayZ, exNearSphere, exMat,
      Vector3.new, Vector3.origin, Vector3.sub_def, Vector3.add_def,
      Vector3.smul_def, Vector3.normalize, Vector3.length, KMAX_T]
  · norm_num [intersect_scene, intersect_scene_loop, ray_sphere_intersection,
      sphere_discriminant, sphere_qa, sphere_qb, sphere_qc, sphere_oc, sphere_t1,
      sphere_t2, sphere_hit_smaller, sphere_hit_larger, point_at_ray, dot,
      exSqrt1, exRayZ, exNearSphere, exMat, Vector3.new, Vector3.origin,
      Vector3.sub_def, Vector3.add_def, Vector3.smul_def, Vector3.normalize,
      Vector3.length, KMIN_T, KMAX_T]

theorem sphere_t1_le_t2 (sqrtQ : ℚ → ℚ) (ray : Ray) (sphere : Sphere)
    (h0 : 0 ≤ sqrtQ (sphere_discriminant ray sphere)) (ha : 0 < sphere_qa ray) :
    sphere_t1 sqrtQ ray sphere ≤ sphere_t2 sqrtQ ray sphere := by
  rw [sphere_t1, sphere_t2]
  exact (div_le_div_iff_of_pos_right ha).mpr (by linarith)

theorem sphere_hit_smaller_t (sqrtQ : ℚ → ℚ) (ray : Ray) (sphere : Sphere) :
    (sphere_hit_smaller sqrtQ ray sphere).t = sphere_t1 sqrtQ ray sphere := rfl

theorem sphere_hit_larger_t (sqrtQ : ℚ → ℚ) (ray : Ray) (sphere : Sphere) :
    (sphere_hit_larger sqrtQ ray sphere).t = sphere_t2 sqrtQ ray sphere := rfl

/-- A hit returned by `ray_sphere_intersection` has its `t` strictly inside
the requested window. -/
theorem rsi_some_bounds (sqrtQ : ℚ → ℚ) (ray : Ray) (sphere : Sphere)
    (t_min t_max : ℚ) (h : Hit)
    (hh : ray_sphere_intersection sqrtQ ray sphere t_min t_max = some h) :
    t_min < h.t ∧ h.t < t_max := by
  simp only [ray_sphere_intersection] at hh
  split_ifs at hh with hd h1 h2
  · injection hh with hh
    subst hh
    exact ⟨h1.2, h1.1⟩
  · injection hh with hh
    subst hh
    exact ⟨h2.2, h2.1⟩

/-- Restriction of an optional hit to a smaller upper bound. -/
def shrink_result (T : ℚ) : Option Hit → Option Hit
  | some h => if h.t < T then some h else none
  | none => none

/-- Shrinking the `t_max` window commutes with `ray_sphere_intersection`:
the result for the smaller window is the result for the larger window
filtered to `t < T'`.  Needs the square root non-negative (so the first root
is the smaller one) and a positive quadratic coefficient. -/
theorem rsi_shrink (sqrtQ : ℚ → ℚ) (ray : Ray) (sphere : Sphere)
    (t_min T T' : ℚ) (hTT : T' ≤ T)
    (h0 : 0 ≤ sqrtQ (sphere_discriminant ray sphere)) (ha : 0 < sphere_qa ray) :
    ray_sphere_intersection sqrtQ ray sphere t_min T' =
      shrink_result T' (ray_sphere_intersection sqrtQ ray sphere t_min T) := by
  have ht12 := sphere_t1_le_t2 sqrtQ ray sphere h0 ha
  simp only [ray_sphere_intersection]
  by_cases hd : sphere_discriminant ray sphere > 0
  · rw [if_pos hd, if_pos hd]
    by_cases hA : sphere_t1 sqrtQ ray sphere < T ∧ sphere_t1 sqrtQ ray sphere > t_min
    · rw [if_pos hA]
      simp only [shrink_result, sphere_hit_smaller_t]
      by_cases hA' : sphere_t1 sqrtQ ray sphere < T'
      · rw [if_pos ⟨hA', hA.2⟩, if_pos hA']
      · rw [if_neg (fun hc => hA' hc.1), if_neg hA',
          if_neg (fun hc : sphere_t2 sqrtQ ray sphere < T' ∧ _ =>
            hA' (lt_of_le_of_lt ht12 hc.1))]
    · rw [if_neg hA,
        if_neg (fun hc : sphere_t1 sqrtQ ray sphere < T' ∧ _ =>
          hA ⟨lt_of_lt_of_le hc.1 hTT, hc.2⟩)]
      by_cases hB : sphere_t2 sqrtQ ray sphere < T ∧ sphere_t2 sqrtQ ray sphere > t_min
      · rw [if_pos hB]
        simp only [shrink_result, sphere_hit_larger_t]
        by_cases hB' : sphere_t2 sqrtQ ray sphere < T'
        · rw [if_pos ⟨hB', hB.2⟩, if_pos hB']
        · rw [if_neg (fun hc => hB' hc.1), if_neg hB']
      · rw [if_neg hB,
          if_neg (fun hc : sphere_t2 sqrtQ ray sphere < T' ∧ _ =>
            hB ⟨lt_of_lt_of_le hc.1 hTT, hc.2⟩)]
        simp only [shrink_result]
  · rw [if_neg hd, if_neg hd]
    simp only [shrink_result]

theorem hit_nearer_none_left (o : Option Hit) : hit_nearer none o = o := rfl

theorem hit_nearer_none_right (o : Option Hit) : hit_nearer o none = o := by
  cases o <;> rfl

theorem hit_nearer_some_none (h : Hit) : hit_nearer (some h) none = some h := rfl

theorem hit_nearer_some_some (h h2 : Hit) :
    hit_nearer (some h) (some h2) = if h2.t < h.t then some h2 else some h := rfl

/-- A strictly nearer later candidate beats any earlier best. -/
theorem hit_nearer_absorb_lt (hc hc' : Hit) (hlt : hc'.t < hc.t)
    (X : Option Hit) :
    hit_nearer (some hc) (hit_nearer (some hc') X) = hit_nearer (some hc') X := by
  cases X with
  | none =>
    rw [hit_nearer_some_none, hit_nearer_some_some, if_pos hlt]
  | some hx =>
    rw [hit_nearer_some_some hc' hx]
    by_cases hxc : hx.t < hc'.t
    · rw [if_pos hxc, hit_nearer_some_some, if_pos (lt_trans hxc hlt)]
    · rw [if_neg hxc, hit_nearer_some_some, if_pos hlt]

/-- A later candidate that is not nearer than the earlier best never changes
the outcome. -/
theorem hit_nearer_drop_ge (hc hc' : Hit) (hge : hc.t ≤ hc'.t) (X : Option Hit) :
    hit_nearer (some hc) (hit_nearer (some hc') X) = hit_nearer (some hc) X := by
  cases X with
  | none =>
    rw [hit_nearer_some_none, hit_nearer_some_some, if_neg (not_lt.mpr hge),
      hit_nearer_some_none]
  | some hx =>
    rw [hit_nearer_some_some hc' hx]
    by_cases hxc : hx.t < hc'.t
    · rw [if_pos hxc]
    · rw [if_neg hxc, hit_nearer_some_some hc hc', hit_nearer_some_some hc hx,
        if_neg (not_lt.mpr hge),
        if_neg (not_lt.mpr (le_trans hge (not_lt.mp hxc)))]

/-- The `intersect_scene` loop computes, relative to an accumulated best hit
(whose `t` equals the current `closest_t`), the `hit_nearer` combination of
that accumulator with the spec-level nearest accepted hit of the remaining
spheres, taken in the original window `(t_min, t_max)`. -/
theorem intersect_scene_loop_spec (sqrtQ : ℚ → ℚ) (ray : Ray) (t_min t_max : ℚ)
    (h0 : ∀ q, 0 ≤ sqrtQ q) (ha : 0 < sphere_qa ray) :
    ∀ (spheres : List Sphere) (closest_t : ℚ) (closest_hit : Option Hit),
      closest_t ≤ t_max →
      (closest_hit = none → closest_t = t_max) →
      (∀ hc, closest_hit = some hc → hc.t = closest_t) →
      intersect_scene_loop sqrtQ ray t_min spheres closest_t closest_hit =
        hit_nearer closest_hit (spec_nearest_hit sqrtQ ray t_min t_max spheres) := by
  intro spheres
  induction spheres with
  | nil =>
    intro closest_t closest_hit _ _ _
    simp only [intersect_scene_loop, spec_nearest_hit, hit_nearer_none_right]
  | cons s rest ih =>
    intro closest_t closest_hit hle hnone hsome
    have hshr := rsi_shrink sqrtQ ray s t_min t_max closest_t hle (h0 _) ha
    simp only [intersect_scene_loop, spec_nearest_hit, spec_accepted, hshr]
    cases hR : ray_sphere_intersection sqrtQ ray s t_min t_max with
    | none =>
      simp only [shrink_result, hit_nearer_none_left]
      exact ih closest_t closest_hit hle hnone hsome
    | some hhit =>
      have hb := rsi_some_bounds sqrtQ ray s t_min t_max hhit hR
      by_cases hlt : hhit.t < closest_t
      · by_cases hk : hhit.t > KMIN_T
        · simp only [shrink_result, if_pos hlt,
            if_pos (show hhit.t > KMIN_T ∧ hhit.t < closest_t from ⟨hk, hlt⟩),
            if_pos hk]
          rw [ih hhit.t (some hhit) (le_of_lt (lt_of_lt_of_le hlt hle))
            (fun hq => absurd hq (by simp))
            (fun hc hceq => by injection hceq with hceq; rw [hceq])]
          cases hch : closest_hit with
          | none => rw [hit_nearer_none_left]
          | some hc =>
            have hct : hc.t = closest_t := hsome hc hch
            exact (hit_nearer_absorb_lt hc hhit (by rw [hct]; exact hlt) _).symm
        · simp only [shrink_result, if_pos hlt,
            if_neg (show ¬(hhit.t > KMIN_T ∧ hhit.t < closest_t) from
              fun hcond => hk hcond.1),
            if_neg (show ¬KMIN_T < hhit.t from hk), hit_nearer_none_left]
          exact ih closest_t closest_hit hle hnone hsome
      · by_cases hk : KMIN_T < hhit.t
        · simp only [shrink_result, if_neg hlt, if_pos hk]
          rw [ih closest_t closest_hit hle hnone hsome]
          cases hch : closest_hit with
          | none =>
            exfalso
            have hmax := hnone hch
            have h1 := hb.2
            have h2 := not_lt.mp hlt
            rw [hmax] at h2
            linarith
          | some hc =>
            have hct : hc.t = closest_t := hsome hc hch
            exact (hit_nearer_drop_ge hc hhit
              (by rw [hct]; exact not_lt.mp hlt) _).symm
        · simp only [shrink_result, if_neg hlt, if_neg hk, hit_nearer_none_left]
          exact ih closest_t closest_hit hle hnone hsome

/-- C3 amended: `intersect_scene` returns the nearest *accepted* hit, where a
sphere's intersection counts as accepted only if, besides lying strictly
inside `(t_min, t_max)`, its `t` also exceeds the constant `KMIN_T`; exact
ties go to the earliest sphere, and `none` is returned when no sphere yields
such a hit.  (Hypotheses: the abstract square root is non-negative, and the
ray direction is nonzero, so the first root tried is the smaller one.) -/
theorem C3_intersect_scene_nearest_amended (sqrtQ : ℚ → ℚ) (ray : Ray)
    (spheres : List Sphere) (t_min t_max : ℚ)
    (h0 : ∀ q, 0 ≤ sqrtQ q) (ha : 0 < sphere_qa ray) :
    intersect_scene sqrtQ ray spheres t_min t_max =
      spec_nearest_hit sqrtQ ray t_min t_max spheres := by
  rw [intersect_scene,
    intersect_scene_loop_spec sqrtQ ray t_min t_max h0 ha spheres t_max none
      le_rfl (fun _ => rfl) (fun hc hceq => by cases hceq),
    hit_nearer_none_left]

/-- Witness for the amended C3 on a two-sphere scene: the loop result equals
the spec-level nearest accepted hit, which is the `t = 2` hit of the first
sphere. -/
theorem C3_intersect_scene_nearest_witness :
    (∀ q, 0 ≤ exSqrt1 q) ∧ 0 < sphere_qa exRayZ ∧
      intersect_scene exSqrt1 exRayZ [exSphere, exSphere2] KMIN_T KMAX_T =
        spec_nearest_hit exSqrt1 exRayZ KMIN_T KMAX_T [exSphere, exSphere2] ∧
      spec_nearest_hit exSqrt1 exRayZ KMIN_T KMAX_T [exSphere, exSphere2] =
        some ⟨Vector3.new 0 0 (-2), Vector3.new 0 0 1, 2, exMat⟩ := by
  have hq : ∀ q, 0 ≤ exSqrt1 q := fun q => by norm_num [exSqrt1]
  have hqa : 0 < sphere_qa exRayZ := by
    norm_num [sphere_qa, dot, exRayZ, Vector3.new]
  refine ⟨hq, hqa, C3_intersect_scene_nearest_amended exSqrt1 exRayZ
    [exSphere, exSphere2] KMIN_T KMAX_T hq hqa, ?_⟩
  norm_num [spec_nearest_hit, spec_accepted, hit_nearer, ray_sphere_intersection,
    sphere_discriminant, sphere_qa, sphere_qb, sphere_qc, sphere_oc, sphere_t1,
    sphere_t2, sphere_hit_smaller, sphere_hit_larger, point_at_ray, dot,
    exSqrt1, exRayZ, exSphere, exSphere2, exMat, Vector3.new, Vector3.origin,
    Vector3.sub_def, Vector3.add_def, Vector3.smul_def, Vector3.normalize,
    Vector3.length, KMIN_T, KMAX_T]

end RR
